import Mathlib

/-!
# License-Plate-Detection-App: core verification

Shallow embedding of the two core components of the repository:

* `PlateValidator.validate_and_normalize` (src/app/utils/plate_validator.py):
  plate-text validation and normalization with OCR-error correction.
  Strings are modelled as `List Char`; Python `str.strip`/`str.upper`,
  `str.split(' ')` and the two regular expressions used by the source are
  modelled character by character.

* `LicensePlateService` (src/app/license_plate_service_v2.py): the
  duplicate-aware detection reconciler.  The relational store is modelled as
  an explicit list of rows plus an id counter; the outcome of the outbound
  store write (insert / update) is a boolean parameter `dbOk`.
  Confidences (Python floats) are modelled as rationals, timestamps as
  integers (seconds).
-/

namespace PlateApp

/-! ## Character classes -/

/-- The whitespace characters stripped by Python's default `str.strip()` and
matched by the regex class `\s` (ASCII range). -/
def isPyWs (c : Char) : Bool :=
  c == ' ' || c == '\t' || c == '\n' || c == '\r' || c == '\x0b' || c == '\x0c'

/-- `[0-9]` -/
def isDigitCh (c : Char) : Bool := decide ('0' ≤ c ∧ c ≤ '9')

/-- `[A-Z]` -/
def isUpperCh (c : Char) : Bool := decide ('A' ≤ c ∧ c ≤ 'Z')

/-- ASCII uppercasing of one character, as done by `str.upper()` on the
characters this program deals with. -/
def pyUpperChar (c : Char) : Char :=
  if 'a' ≤ c ∧ c ≤ 'z' then Char.ofNat (c.toNat - 32) else c

/-- `str.upper()` -/
def pyUpper (t : List Char) : List Char := t.map pyUpperChar

/-- `str.strip()`: drop leading and trailing whitespace. -/
def pyStrip (t : List Char) : List Char :=
  ((t.dropWhile isPyWs).reverse.dropWhile isPyWs).reverse

/-- Python `str.split(' ')`: split on every single space, keeping empty
pieces. -/
def splitOnSpace : List Char → List (List Char)
  | [] => [[]]
  | c :: rest =>
    match splitOnSpace rest with
    | [] => [[c]]
    | p :: ps => if c = ' ' then [] :: p :: ps else (c :: p) :: ps

/-! ## PlateValidator -/

/-- `PlateValidator._fix_spacing`: insert a space after position 3 when the
text contains no space and is exactly 6 characters long. -/
def fix_spacing (t : List Char) : List Char :=
  if ' ' ∈ t ∨ t.length ≠ 6 then t
  else t.take 3 ++ ' ' :: t.drop 3

/-- The per-character letter→digit map applied to the first group in
`PlateValidator._fix_ocr_errors`. -/
def ocrToDigit (c : Char) : Char :=
  if c = 'O' then '0'
  else if c = 'I' then '1'
  else if c = 'S' then '5'
  else if c = 'J' then '1'
  else if c = 'G' then '6'
  else if c = 'B' then '8'
  else if c = 'Z' then '2'
  else if c = 'T' then '7'
  else c

/-- The per-character digit→letter map applied to the second group in
`PlateValidator._fix_ocr_errors`. -/
def ocrToAlpha (c : Char) : Char :=
  if c = '0' then 'O'
  else if c = '1' then 'I'
  else if c = '5' then 'S'
  else if c = '4' then 'A'
  else if c = '6' then 'G'
  else if c = '8' then 'B'
  else if c = '2' then 'Z'
  else if c = '7' then 'T'
  else c

/-- `PlateValidator._fix_ocr_errors`. -/
def fix_ocr_errors (t : List Char) : List Char :=
  if ' ' ∉ t then t
  else
    match splitOnSpace t with
    | [p1, p2] =>
      if p1.length = 3 ∧ p2.length = 3 then
        p1.map ocrToDigit ++ ' ' :: p2.map ocrToAlpha
      else t
    | _ => t

/-- Full match of `^[0-9]{3}\s[A-Z]{3}$` (Python `re.match` with `$`, which
also accepts one trailing newline). -/
def reMatchNumAlpha (t : List Char) : Bool :=
  match t with
  | [a, b, c, s, d, e, f] =>
    isDigitCh a && isDigitCh b && isDigitCh c && isPyWs s &&
      isUpperCh d && isUpperCh e && isUpperCh f
  | [a, b, c, s, d, e, f, n] =>
    isDigitCh a && isDigitCh b && isDigitCh c && isPyWs s &&
      isUpperCh d && isUpperCh e && isUpperCh f && n == '\n'
  | _ => false

/-- Full match of `^[A-Z]{3}\s[0-9]{3}$` (with the same trailing-newline
allowance). -/
def reMatchAlphaNum (t : List Char) : Bool :=
  match t with
  | [a, b, c, s, d, e, f] =>
    isUpperCh a && isUpperCh b && isUpperCh c && isPyWs s &&
      isDigitCh d && isDigitCh e && isDigitCh f
  | [a, b, c, s, d, e, f, n] =>
    isUpperCh a && isUpperCh b && isUpperCh c && isPyWs s &&
      isDigitCh d && isDigitCh e && isDigitCh f && n == '\n'
  | _ => false

/-- `re.search(r'[^A-Z0-9\s]', text)` found something. -/
def hasInvalidChar (t : List Char) : Bool :=
  t.any fun c => !(isUpperCh c || isDigitCh c || isPyWs c)

/-- `PlateValidator._is_valid_format`. -/
def is_valid_format (t : List Char) : Bool :=
  if t.isEmpty ∨ ' ' ∉ t then false
  else
    match splitOnSpace t with
    | [p1, p2] =>
      if p1.length = 3 ∧ p2.length = 3 then
        if hasInvalidChar t then false
        else reMatchNumAlpha t || reMatchAlphaNum t
      else false
    | _ => false

/-- Full match of `^[0-9]{3}$` on one group (Python `re.match` with `$`). -/
def reMatch3Digits (p : List Char) : Bool :=
  match p with
  | [a, b, c] => isDigitCh a && isDigitCh b && isDigitCh c
  | [a, b, c, n] => isDigitCh a && isDigitCh b && isDigitCh c && n == '\n'
  | _ => false

/-- Full match of `^[A-Z]{3}$` on one group. -/
def reMatch3Alpha (p : List Char) : Bool :=
  match p with
  | [a, b, c] => isUpperCh a && isUpperCh b && isUpperCh c
  | [a, b, c, n] => isUpperCh a && isUpperCh b && isUpperCh c && n == '\n'
  | _ => false

/-- `PlateValidator._get_plate_type`. -/
def get_plate_type (t : List Char) : String :=
  if ¬ is_valid_format t then "invalid"
  else
    match splitOnSpace t with
    | [p1, p2] =>
      if reMatch3Digits p1 && reMatch3Alpha p2 then "numeric_alpha"
      else if reMatch3Alpha p1 && reMatch3Digits p2 then "alpha_numeric"
      else "unknown"
    | _ => "unknown"

/-- The four correction candidates tried in order by
`PlateValidator.validate_and_normalize` on the cleaned text. -/
def candidates (clean : List Char) : List (List Char) :=
  [clean, fix_spacing clean, fix_ocr_errors clean, fix_ocr_errors (fix_spacing clean)]

/-- `PlateValidator.validate_and_normalize`. -/
def validate_and_normalize (s : List Char) : Bool × Option (List Char) × String :=
  if s.isEmpty then (false, none, "invalid")
  else if (pyUpper (pyStrip s)).length < 6 ∨ (pyUpper (pyStrip s)).length > 7 then
    (false, none, "invalid")
  else
    match (candidates (pyUpper (pyStrip s))).find? is_valid_format with
    | some c => (true, some c, get_plate_type c)
    | none => (false, none, "invalid")

/-! ## Properties of `splitOnSpace` -/

theorem splitOnSpace_ne_nil (t : List Char) : splitOnSpace t ≠ [] := by
  induction t with
  | nil => simp [splitOnSpace]
  | cons c rest ih =>
    simp only [splitOnSpace]
    cases h : splitOnSpace rest with
    | nil => exact absurd h ih
    | cons p ps => by_cases hc : c = ' ' <;> simp [hc]

theorem splitOnSpace_cons (c : Char) (rest : List Char) {q : List Char}
    {qs : List (List Char)} (hr : splitOnSpace rest = q :: qs) :
    splitOnSpace (c :: rest) = if c = ' ' then [] :: q :: qs else (c :: q) :: qs := by
  simp only [splitOnSpace, hr]

theorem splitOnSpace_of_not_mem {p : List Char} (h : ' ' ∉ p) : splitOnSpace p = [p] := by
  induction p with
  | nil => rfl
  | cons c rest ih =>
    simp only [List.mem_cons, not_or] at h
    rw [splitOnSpace_cons c rest (ih h.2), if_neg fun hc => h.1 hc.symm]

theorem splitOnSpace_append {p1 rest : List Char} (h : ' ' ∉ p1) :
    splitOnSpace (p1 ++ ' ' :: rest) = p1 :: splitOnSpace rest := by
  induction p1 with
  | nil =>
    obtain ⟨q, qs, hq⟩ := List.exists_cons_of_ne_nil (splitOnSpace_ne_nil rest)
    simp [splitOnSpace_cons ' ' rest hq, hq]
  | cons c p1 ih =>
    simp only [List.mem_cons, not_or] at h
    rw [List.cons_append, splitOnSpace_cons c _ (ih h.2),
      if_neg fun hc => h.1 hc.symm]

theorem splitOnSpace_eq_single {t p : List Char} (h : splitOnSpace t = [p]) :
    t = p ∧ ' ' ∉ p := by
  induction t generalizing p with
  | nil =>
    simp only [splitOnSpace, List.cons.injEq, and_true] at h
    subst h
    exact ⟨rfl, by simp⟩
  | cons c rest ih =>
    cases hr : splitOnSpace rest with
    | nil => exact absurd hr (splitOnSpace_ne_nil rest)
    | cons q qs =>
      rw [splitOnSpace_cons c rest hr] at h
      by_cases hc : c = ' '
      · rw [if_pos hc] at h; simp at h
      · rw [if_neg hc] at h
        obtain ⟨h1, h2⟩ := List.cons.inj h
        subst h2
        obtain ⟨hrest, hq⟩ := ih hr
        subst hrest
        subst h1
        refine ⟨rfl, ?_⟩
        simp only [List.mem_cons, not_or]
        exact ⟨fun he => hc he.symm, hq⟩

theorem splitOnSpace_eq_pair {t p1 p2 : List Char} (h : splitOnSpace t = [p1, p2]) :
    t = p1 ++ ' ' :: p2 ∧ ' ' ∉ p1 ∧ ' ' ∉ p2 := by
  induction t generalizing p1 with
  | nil => simp [splitOnSpace] at h
  | cons c rest ih =>
    cases hr : splitOnSpace rest with
    | nil => exact absurd hr (splitOnSpace_ne_nil rest)
    | cons q qs =>
      rw [splitOnSpace_cons c rest hr] at h
      by_cases hc : c = ' '
      · rw [if_pos hc] at h
        obtain ⟨h1, h2⟩ := List.cons.inj h
        obtain ⟨h3, h4⟩ := List.cons.inj h2
        rw [h3, h4] at hr
        obtain ⟨hrest, hnp2⟩ := splitOnSpace_eq_single hr
        refine ⟨?_, ?_, hnp2⟩
        · rw [hc, hrest, ← h1]; rfl
        · rw [← h1]; simp
      · rw [if_neg hc] at h
        obtain ⟨h1, h2⟩ := List.cons.inj h
        rw [h2] at hr
        obtain ⟨hrest, hnq, hnp2⟩ := ih hr
        refine ⟨?_, ?_, hnp2⟩
        · rw [hrest, ← h1]; rfl
        · rw [← h1]
          simp only [List.mem_cons, not_or]
          exact ⟨fun he => hc he.symm, hnq⟩

/-! ## Character-class facts -/

theorem isDigitCh_iff {c : Char} : isDigitCh c = true ↔ '0' ≤ c ∧ c ≤ '9' := by
  simp [isDigitCh]

theorem isUpperCh_iff {c : Char} : isUpperCh c = true ↔ 'A' ≤ c ∧ c ≤ 'Z' := by
  simp [isUpperCh]

theorem ne_space_of_digit {c : Char} (h : isDigitCh c = true) : c ≠ ' ' := by
  intro hc; subst hc; exact absurd h (by decide)

theorem ne_space_of_upper {c : Char} (h : isUpperCh c = true) : c ≠ ' ' := by
  intro hc; subst hc; exact absurd h (by decide)

theorem isPyWs_false_of_digit {c : Char} (h : isDigitCh c = true) : isPyWs c = false := by
  cases hws : isPyWs c with
  | false => rfl
  | true =>
    simp only [isPyWs, Bool.or_eq_true, beq_iff_eq] at hws
    rcases hws with ((((rfl | rfl) | rfl) | rfl) | rfl) | rfl <;> exact absurd h (by decide)

theorem isPyWs_false_of_upper {c : Char} (h : isUpperCh c = true) : isPyWs c = false := by
  cases hws : isPyWs c with
  | false => rfl
  | true =>
    simp only [isPyWs, Bool.or_eq_true, beq_iff_eq] at hws
    rcases hws with ((((rfl | rfl) | rfl) | rfl) | rfl) | rfl <;> exact absurd h (by decide)

theorem not_digit_of_upper {c : Char} (h : isUpperCh c = true) : isDigitCh c = false := by
  rw [isUpperCh_iff] at h
  simp only [isDigitCh, decide_eq_false_iff_not, not_and]
  intro _ h9
  exact absurd (le_trans h.1 h9) (by decide)

theorem pyUpperChar_of_digit {c : Char} (h : isDigitCh c = true) : pyUpperChar c = c := by
  rw [isDigitCh_iff] at h
  rw [pyUpperChar, if_neg]
  rintro ⟨h1, -⟩
  exact absurd (le_trans h1 h.2) (by decide)

theorem pyUpperChar_of_upper {c : Char} (h : isUpperCh c = true) : pyUpperChar c = c := by
  rw [isUpperCh_iff] at h
  rw [pyUpperChar, if_neg]
  rintro ⟨h1, -⟩
  exact absurd (le_trans h1 h.2) (by decide)

/-! ## Spec-side strict pattern (claim C1)

The claim describes the accepted candidates as exactly those matching
`[0-9]{3} SPACE [A-Z]{3}` or `[A-Z]{3} SPACE [0-9]{3}` (a literal single
space).  These definitions follow the claim's words; the source's
`_is_valid_format` is proved extensionally equal to them below. -/

def specNumAlpha (t : List Char) : Bool :=
  match t with
  | [a, b, c, s, d, e, f] =>
    isDigitCh a && isDigitCh b && isDigitCh c && (s == ' ') &&
      isUpperCh d && isUpperCh e && isUpperCh f
  | _ => false

def specAlphaNum (t : List Char) : Bool :=
  match t with
  | [a, b, c, s, d, e, f] =>
    isUpperCh a && isUpperCh b && isUpperCh c && (s == ' ') &&
      isDigitCh d && isDigitCh e && isDigitCh f
  | _ => false

def specMatchStrict (t : List Char) : Bool := specNumAlpha t || specAlphaNum t

theorem specNumAlpha_shape {t : List Char} (h : specNumAlpha t = true) :
    ∃ a b c d e f, t = [a, b, c, ' ', d, e, f] ∧
      isDigitCh a = true ∧ isDigitCh b = true ∧ isDigitCh c = true ∧
      isUpperCh d = true ∧ isUpperCh e = true ∧ isUpperCh f = true := by
  unfold specNumAlpha at h
  split at h
  · next a b c s d e f =>
    simp only [Bool.and_eq_true, beq_iff_eq] at h
    obtain ⟨⟨⟨⟨⟨⟨ha, hb⟩, hc⟩, hs⟩, hd⟩, he⟩, hf⟩ := h
    subst hs
    exact ⟨a, b, c, d, e, f, rfl, ha, hb, hc, hd, he, hf⟩
  · exact absurd h (by simp)

theorem specAlphaNum_shape {t : List Char} (h : specAlphaNum t = true) :
    ∃ a b c d e f, t = [a, b, c, ' ', d, e, f] ∧
      isUpperCh a = true ∧ isUpperCh b = true ∧ isUpperCh c = true ∧
      isDigitCh d = true ∧ isDigitCh e = true ∧ isDigitCh f = true := by
  unfold specAlphaNum at h
  split at h
  · next a b c s d e f =>
    simp only [Bool.and_eq_true, beq_iff_eq] at h
    obtain ⟨⟨⟨⟨⟨⟨ha, hb⟩, hc⟩, hs⟩, hd⟩, he⟩, hf⟩ := h
    subst hs
    exact ⟨a, b, c, d, e, f, rfl, ha, hb, hc, hd, he, hf⟩
  · exact absurd h (by simp)

theorem not_mem_space_digits {a b c : Char} (ha : isDigitCh a = true)
    (hb : isDigitCh b = true) (hc : isDigitCh c = true) : ' ' ∉ [a, b, c] := by
  simp only [List.mem_cons, not_or, List.not_mem_nil, not_false_iff, and_true]
  exact ⟨fun h => ne_space_of_digit ha h.symm, fun h => ne_space_of_digit hb h.symm,
    fun h => ne_space_of_digit hc h.symm⟩

theorem not_mem_space_uppers {a b c : Char} (ha : isUpperCh a = true)
    (hb : isUpperCh b = true) (hc : isUpperCh c = true) : ' ' ∉ [a, b, c] := by
  simp only [List.mem_cons, not_or, List.not_mem_nil, not_false_iff, and_true]
  exact ⟨fun h => ne_space_of_upper ha h.symm, fun h => ne_space_of_upper hb h.symm,
    fun h => ne_space_of_upper hc h.symm⟩

theorem splitOnSpace_group7 {a b c d e f : Char} (h1 : ' ' ∉ [a, b, c])
    (h2 : ' ' ∉ [d, e, f]) :
    splitOnSpace [a, b, c, ' ', d, e, f] = [[a, b, c], [d, e, f]] := by
  have := @splitOnSpace_append [a, b, c] [d, e, f] h1
  rw [show [a, b, c] ++ ' ' :: [d, e, f] = [a, b, c, ' ', d, e, f] from rfl] at this
  rw [this, splitOnSpace_of_not_mem h2]

theorem valid_format_of_spec {t : List Char} (h : specMatchStrict t = true) :
    is_valid_format t = true := by
  rcases Bool.or_eq_true_iff.mp h with h1 | h1
  · obtain ⟨a, b, c, d, e, f, rfl, ha, hb, hc, hd, he, hf⟩ := specNumAlpha_shape h1
    have hsp := splitOnSpace_group7 (not_mem_space_digits ha hb hc)
      (not_mem_space_uppers hd he hf)
    rw [is_valid_format, if_neg, hsp]
    · simp only [List.length_cons, List.length_nil]
      rw [if_pos ⟨trivial, trivial⟩, if_neg]
      · simp [reMatchNumAlpha, ha, hb, hc, hd, he, hf, isPyWs]
      · simp [hasInvalidChar, ha, hb, hc, hd, he, hf, isPyWs]
    · simp
  · obtain ⟨a, b, c, d, e, f, rfl, ha, hb, hc, hd, he, hf⟩ := specAlphaNum_shape h1
    have hsp := splitOnSpace_group7 (not_mem_space_uppers ha hb hc)
      (not_mem_space_digits hd he hf)
    rw [is_valid_format, if_neg, hsp]
    · simp only [List.length_cons, List.length_nil]
      rw [if_pos ⟨trivial, trivial⟩, if_neg]
      · simp [reMatchNumAlpha, reMatchAlphaNum, ha, hb, hc, hd, he, hf, isPyWs]
      · simp [hasInvalidChar, ha, hb, hc, hd, he, hf, isPyWs]
    · simp

theorem spec_of_valid_format {t : List Char} (h : is_valid_format t = true) :
    specMatchStrict t = true := by
  rw [is_valid_format] at h
  split at h
  · exact absurd h (by simp)
  · split at h
    · next p1 p2 heq =>
      split at h
      · next hlen =>
        split at h
        · exact absurd h (by simp)
        · obtain ⟨rfl, hnp1, hnp2⟩ := splitOnSpace_eq_pair heq
          obtain ⟨a, b, c, rfl⟩ := List.length_eq_three.mp hlen.1
          obtain ⟨d, e, f, rfl⟩ := List.length_eq_three.mp hlen.2
          rw [show [a, b, c] ++ ' ' :: [d, e, f] = [a, b, c, ' ', d, e, f] from rfl] at h ⊢
          simp only [reMatchNumAlpha, reMatchAlphaNum, Bool.or_eq_true,
            Bool.and_eq_true] at h
          simp only [specMatchStrict, specNumAlpha, specAlphaNum, Bool.or_eq_true,
            Bool.and_eq_true, beq_self_eq_true, and_true]
          rcases h with ⟨⟨⟨⟨⟨⟨ha, hb⟩, hc⟩, -⟩, hd⟩, he⟩, hf⟩ |
            ⟨⟨⟨⟨⟨⟨ha, hb⟩, hc⟩, -⟩, hd⟩, he⟩, hf⟩
          · exact Or.inl ⟨⟨⟨⟨⟨ha, hb⟩, hc⟩, hd⟩, he⟩, hf⟩
          · exact Or.inr ⟨⟨⟨⟨⟨ha, hb⟩, hc⟩, hd⟩, he⟩, hf⟩
      · exact absurd h (by simp)
    · exact absurd h (by simp)

theorem is_valid_format_eq_spec (t : List Char) :
    is_valid_format t = specMatchStrict t := by
  cases hv : is_valid_format t with
  | true => exact (spec_of_valid_format hv).symm
  | false =>
    cases hs : specMatchStrict t with
    | true => exact Bool.noConfusion (hv.symm.trans (valid_format_of_spec hs))
    | false => rfl

theorem get_plate_type_of_spec {t : List Char} (h : specMatchStrict t = true) :
    get_plate_type t =
      if specNumAlpha t then "numeric_alpha" else "alpha_numeric" := by
  have hv := valid_format_of_spec h
  rcases Bool.or_eq_true_iff.mp h with h1 | h1
  · obtain ⟨a, b, c, d, e, f, rfl, ha, hb, hc, hd, he, hf⟩ := specNumAlpha_shape h1
    have hsp := splitOnSpace_group7 (not_mem_space_digits ha hb hc)
      (not_mem_space_uppers hd he hf)
    simp [get_plate_type, hv, hsp, reMatch3Digits, reMatch3Alpha, specNumAlpha,
      ha, hb, hc, hd, he, hf]
  · obtain ⟨a, b, c, d, e, f, rfl, ha, hb, hc, hd, he, hf⟩ := specAlphaNum_shape h1
    have hsp := splitOnSpace_group7 (not_mem_space_uppers ha hb hc)
      (not_mem_space_digits hd he hf)
    simp [get_plate_type, hv, hsp, reMatch3Digits, reMatch3Alpha, specNumAlpha,
      ha, hb, hc, hd, he, hf, not_digit_of_upper ha]

/-- Validation exactly as claim C1 words it: clean the input, reject on a
cleaned length outside `[6,7]`, otherwise return the first of the four
candidates matching the literal strict pattern, tagged `numeric_alpha` when
the digit group comes first and `alpha_numeric` otherwise. -/
def specValidateC1 (s : List Char) : Bool × Option (List Char) × String :=
  if (pyUpper (pyStrip s)).length < 6 ∨ (pyUpper (pyStrip s)).length > 7 then
    (false, none, "invalid")
  else
    match (candidates (pyUpper (pyStrip s))).find? specMatchStrict with
    | some c =>
      (true, some c, if specNumAlpha c then "numeric_alpha" else "alpha_numeric")
    | none => (false, none, "invalid")

theorem validator_eq_specC1 (s : List Char) :
    validate_and_normalize s = specValidateC1 s := by
  have hfun : is_valid_format = specMatchStrict := funext is_valid_format_eq_spec
  by_cases hs : s.isEmpty = true
  · obtain rfl : s = [] := by simpa using hs
    decide
  · rw [validate_and_normalize, specValidateC1, if_neg hs]
    by_cases hl : (pyUpper (pyStrip s)).length < 6 ∨ (pyUpper (pyStrip s)).length > 7
    · rw [if_pos hl, if_pos hl]
    · rw [if_neg hl, if_neg hl, hfun]
      cases hf : (candidates (pyUpper (pyStrip s))).find? specMatchStrict with
      | none => rfl
      | some c => simp only [get_plate_type_of_spec (List.find?_some hf)]

theorem pyUpperChar_space : pyUpperChar ' ' = ' ' := by decide

theorem pyStrip_sevenShape {a b c d e f : Char} (hna : isPyWs a = false)
    (hnf : isPyWs f = false) :
    pyStrip [a, b, c, ' ', d, e, f] = [a, b, c, ' ', d, e, f] := by
  rw [pyStrip, List.dropWhile_cons, if_neg (by simp [hna])]
  rw [show ([a, b, c, ' ', d, e, f] : List Char).reverse = [f, e, d, ' ', c, b, a]
    from by simp]
  rw [List.dropWhile_cons, if_neg (by simp [hnf])]
  simp

/-- Every string matching the strict pattern is a fixed point of the full
validation pipeline: cleaning leaves it unchanged and the first candidate
already matches. -/
theorem validator_fixed_of_spec {n : List Char} (h : specMatchStrict n = true) :
    validate_and_normalize n =
      (true, some n, if specNumAlpha n then "numeric_alpha" else "alpha_numeric") := by
  have hvalid : is_valid_format n = true := valid_format_of_spec h
  rcases Bool.or_eq_true_iff.mp h with h1 | h1
  · obtain ⟨a, b, c, d, e, f, rfl, ha, hb, hc, hd, he, hf⟩ := specNumAlpha_shape h1
    have hstrip := @pyStrip_sevenShape a b c d e f
      (isPyWs_false_of_digit ha) (isPyWs_false_of_upper hf)
    have hupper : pyUpper [a, b, c, ' ', d, e, f] = [a, b, c, ' ', d, e, f] := by
      simp [pyUpper, pyUpperChar_of_digit ha, pyUpperChar_of_digit hb,
        pyUpperChar_of_digit hc, pyUpperChar_of_upper hd, pyUpperChar_of_upper he,
        pyUpperChar_of_upper hf, pyUpperChar_space]
    rw [validate_and_normalize, if_neg (by simp), hstrip, hupper,
      if_neg (by simp), candidates, List.find?_cons_of_pos _ hvalid]
    simp only [get_plate_type_of_spec h]
  · obtain ⟨a, b, c, d, e, f, rfl, ha, hb, hc, hd, he, hf⟩ := specAlphaNum_shape h1
    have hstrip := @pyStrip_sevenShape a b c d e f
      (isPyWs_false_of_upper ha) (isPyWs_false_of_digit hf)
    have hupper : pyUpper [a, b, c, ' ', d, e, f] = [a, b, c, ' ', d, e, f] := by
      simp [pyUpper, pyUpperChar_of_upper ha, pyUpperChar_of_upper hb,
        pyUpperChar_of_upper hc, pyUpperChar_of_digit hd, pyUpperChar_of_digit he,
        pyUpperChar_of_digit hf, pyUpperChar_space]
    rw [validate_and_normalize, if_neg (by simp), hstrip, hupper,
      if_neg (by simp), candidates, List.find?_cons_of_pos _ hvalid]
    simp only [get_plate_type_of_spec h]

/-! ## Spec-side OCR correction (claim C7) -/

/-- OCR-confusion correction as claim C7 words it: a no-op unless the input
contains a space splitting it into exactly two groups of exactly 3 characters
each; when it applies, the first group is rewritten character-by-character
toward digits and the second toward letters. -/
def specFixOcr (t : List Char) : List Char :=
  match t with
  | [a, b, c, s, d, e, f] =>
    if s = ' ' ∧ a ≠ ' ' ∧ b ≠ ' ' ∧ c ≠ ' ' ∧ d ≠ ' ' ∧ e ≠ ' ' ∧ f ≠ ' ' then
      [ocrToDigit a, ocrToDigit b, ocrToDigit c, ' ',
        ocrToAlpha d, ocrToAlpha e, ocrToAlpha f]
    else t
  | _ => t

theorem specFixOcr_eq_self_of {t : List Char}
    (h : ∀ a b c d e f : Char, t = [a, b, c, ' ', d, e, f] →
      ' ' ∉ ([a, b, c] : List Char) → ' ' ∉ ([d, e, f] : List Char) → False) :
    specFixOcr t = t := by
  unfold specFixOcr
  split
  · next a b c s d e f =>
    rw [if_neg]
    rintro ⟨rfl, h1, h2, h3, h4, h5, h6⟩
    refine h a b c d e f rfl ?_ ?_
    · simp only [List.mem_cons, List.not_mem_nil, or_false, not_or]
      exact ⟨fun x => h1 x.symm, fun x => h2 x.symm, fun x => h3 x.symm⟩
    · simp only [List.mem_cons, List.not_mem_nil, or_false, not_or]
      exact ⟨fun x => h4 x.symm, fun x => h5 x.symm, fun x => h6 x.symm⟩
  · rfl

theorem fix_ocr_errors_eq_spec (t : List Char) : fix_ocr_errors t = specFixOcr t := by
  by_cases hmem : ' ' ∈ t
  · rw [fix_ocr_errors, if_neg (not_not_intro hmem)]
    split
    · next p1 p2 heq =>
      by_cases hlen : p1.length = 3 ∧ p2.length = 3
      · rw [if_pos hlen]
        obtain ⟨rfl, hn1, hn2⟩ := splitOnSpace_eq_pair heq
        obtain ⟨a, b, c, rfl⟩ := List.length_eq_three.mp hlen.1
        obtain ⟨d, e, f, rfl⟩ := List.length_eq_three.mp hlen.2
        simp only [List.mem_cons, List.not_mem_nil, or_false, not_or] at hn1 hn2
        rw [show ([a, b, c] : List Char) ++ ' ' :: [d, e, f] =
          [a, b, c, ' ', d, e, f] from rfl]
        simp only [specFixOcr]
        rw [if_pos ⟨trivial, fun x => hn1.1 x.symm, fun x => hn1.2.1 x.symm,
          fun x => hn1.2.2 x.symm, fun x => hn2.1 x.symm, fun x => hn2.2.1 x.symm,
          fun x => hn2.2.2 x.symm⟩]
        rfl
      · rw [if_neg hlen]
        refine (specFixOcr_eq_self_of ?_).symm
        rintro a b c d e f h7 hq1 hq2
        rw [h7, splitOnSpace_group7 hq1 hq2] at heq
        obtain ⟨h1, h2⟩ := List.cons.inj heq
        obtain ⟨h3, -⟩ := List.cons.inj h2
        exact hlen ⟨by rw [← h1]; rfl, by rw [← h3]; rfl⟩
    · next hno =>
      refine (specFixOcr_eq_self_of ?_).symm
      rintro a b c d e f h7 hq1 hq2
      exact hno [a, b, c] [d, e, f] (by rw [h7, splitOnSpace_group7 hq1 hq2])
  · rw [fix_ocr_errors, if_pos hmem]
    refine (specFixOcr_eq_self_of ?_).symm
    rintro a b c d e f h7 - -
    exact hmem (by rw [h7]; simp)

/-! ## Claims C1, C6, C7 -/

/-- C1: `validate_and_normalize` cleans the input by trimming and
uppercasing, rejects immediately when the cleaned length is outside `[6,7]`,
and otherwise returns the first of the four fixed candidates (cleaned text,
spacing fix, OCR fix, OCR fix after spacing fix) matching exactly
`[0-9]{3} SPACE [A-Z]{3}` or `[A-Z]{3} SPACE [0-9]{3}`, tagged
`numeric_alpha` when the digit group comes first and `alpha_numeric`
otherwise; if no candidate matches it returns `(false, none, "invalid")`.
Formally: the source pipeline coincides with `specValidateC1`, the function
written from the claim's words, on every input string. -/
theorem c1_validator_equals_claimed_pipeline (s : List Char) :
    validate_and_normalize s = specValidateC1 s :=
  validator_eq_specC1 s

/-- C6: every valid normalized output of `validate_and_normalize` is a fixed
point — re-validating a returned normalized text yields the same normalized
text, still valid, with the same format type. -/
theorem c6_validator_idempotent_on_valid_output (s n : List Char) (ty : String)
    (h : validate_and_normalize s = (true, some n, ty)) :
    validate_and_normalize n = (true, some n, ty) := by
  rw [validator_eq_specC1, specValidateC1] at h
  split at h
  · exact absurd h (by simp)
  · split at h
    · next c heq =>
      have hcm := List.find?_some heq
      simp only [Prod.mk.injEq, true_and, Option.some.injEq] at h
      obtain ⟨rfl, hty⟩ := h
      rw [validator_fixed_of_spec hcm, hty]
    · exact absurd h (by simp)

/-- Witness for C6 at the concrete input "5I8 U0Z", whose normalized output
"518 UOZ" is indeed returned unchanged by a second validation. -/
theorem c6_witness :
    validate_and_normalize "5I8 U0Z".data =
      (true, some "518 UOZ".data, "numeric_alpha") ∧
    validate_and_normalize "518 UOZ".data =
      (true, some "518 UOZ".data, "numeric_alpha") :=
  ⟨by decide, c6_validator_idempotent_on_valid_output "5I8 U0Z".data
    "518 UOZ".data "numeric_alpha" (by decide)⟩

/-- C7: the OCR-confusion correction is a no-op unless its input is a
space-separated pair of 3-character groups; when it applies it rewrites the
first group toward digits (O→0, I→1, S→5, J→1, G→6, B→8, Z→2, T→7) and the
second toward letters (0→O, 1→I, 5→S, 4→A, 6→G, 8→B, 2→Z, 7→T), characters
not in the mapping passing through unchanged; in particular
`validate_and_normalize "5I8 U0Z" = (true, "518 UOZ", numeric_alpha)`. -/
theorem c7_ocr_correction_characterization :
    (∀ t, fix_ocr_errors t = specFixOcr t) ∧
    validate_and_normalize "5I8 U0Z".data =
      (true, some "518 UOZ".data, "numeric_alpha") :=
  ⟨fix_ocr_errors_eq_spec, by decide⟩

/-! ## LicensePlateService (src/app/license_plate_service_v2.py) -/

/-- Bounding-box coordinates `(x, y, w, h)`. -/
abbrev Coords := Int × Int × Int × Int

/-- One row of the `license_plates` table, restricted to the columns the
reconciler reads or writes.  Confidences are rationals (Python floats),
timestamps are integer seconds. -/
structure Plate where
  id : Int
  plate_text : String
  confidence : ℚ
  best_confidence : ℚ
  location : String
  coordinates : Option Coords
  best_coordinates : Option Coords
  status : String
  detection_count : Nat
  first_location : String
  latest_location : String
  last_seen : Int
  deriving Repr, DecidableEq

/-- Service state: the table rows, the store's auto-increment counter, and
the process-wide rate-limiter watermark `last_save_time`. -/
structure ServiceState where
  store : List Plate
  next_id : Int
  last_save_time : Int
  deriving Repr, DecidableEq

/-- Python `round(x, 2)`.  (Python rounds half to even; `round` here rounds
half up — the two differ only exactly at half-hundredths, which no claim
exercises.) -/
def round2 (q : ℚ) : ℚ := ((round (q * 100) : ℤ) : ℚ) / 100

/-- The SQL row filter of `find_recent_detection`: same plate text and
`last_seen >= now - window` (window in minutes). -/
def matchesRecent (text : String) (now windowMin : Int) (p : Plate) : Bool :=
  p.plate_text == text && decide (now - windowMin * 60 ≤ p.last_seen)

/-- `ORDER BY last_seen DESC LIMIT 1` over a row list: a row with the
greatest `last_seen` (the earliest such row on ties). -/
def mostRecent : List Plate → Option Plate
  | [] => none
  | p :: ps =>
    match mostRecent ps with
    | none => some p
    | some q => if q.last_seen > p.last_seen then some q else some p

/-- `LicensePlateService.find_recent_detection`. -/
def find_recent_detection (store : List Plate) (text : String) (now : Int)
    (windowMin : Int) : Option Plate :=
  mostRecent (store.filter (matchesRecent text now windowMin))

/-- The `update_data` dictionary built on the UPDATE path of
`add_or_update_detection`, applied to a row; `m` is the matched row the
values were computed from. -/
def applyUpdate (m : Plate) (confidence : ℚ) (location : String)
    (coordinates : Option Coords) (now : Int) (p : Plate) : Plate :=
  let p1 := { p with detection_count := m.detection_count + 1 }
  let p2 :=
    if m.best_confidence < confidence then
      { p1 with
        best_confidence := confidence
        best_coordinates :=
          match coordinates with
          | some cs => some cs
          | none => p1.best_coordinates }
    else p1
  let p3 := { p2 with confidence := confidence }
  let p4 :=
    match coordinates with
    | some cs => { p3 with coordinates := some cs }
    | none => p3
  { p4 with latest_location := location, last_seen := now }

/-- `LicensePlateService.update_plate`: succeeds iff the outbound write works
(`dbOk`) and a row with the given id exists (`rows_affected > 0`); on
success the row is overwritten, otherwise nothing changes. -/
def update_plate (store : List Plate) (pid : Int) (f : Plate → Plate)
    (dbOk : Bool) : Bool × List Plate :=
  if dbOk && store.any (fun p => p.id == pid) then
    (true, store.map fun p => if p.id == pid then f p else p)
  else (false, store)

/-- The row inserted by `LicensePlateService._create_new_detection`.
`last_seen` is not among the INSERT columns; the store schema (not under
src/) defaults it to the insertion time — modelled from the spec's
"`lastSeen`: timestamp of most recent reconciled observation". -/
def newPlate (pid : Int) (text : String) (confidence : ℚ) (location : String)
    (coordinates : Option Coords) (now : Int) : Plate :=
  { id := pid
    plate_text := text
    confidence := round2 confidence
    best_confidence := round2 confidence
    location := location
    coordinates := coordinates
    best_coordinates := coordinates
    status := "detected"
    detection_count := 1
    first_location := location
    latest_location := location
    last_seen := now }

/-- `LicensePlateService._create_new_detection`: on store failure returns
`-1` leaving the table unchanged; on success inserts the row and returns the
store-assigned id. -/
def create_new_detection (st : ServiceState) (text : String) (confidence : ℚ)
    (location : String) (coordinates : Option Coords) (now : Int)
    (dbOk : Bool) : Int × ServiceState :=
  if dbOk then
    (st.next_id,
      { st with
        store := st.store ++
          [newPlate st.next_id text confidence location coordinates now]
        next_id := st.next_id + 1 })
  else (-1, st)

/-- Zero-padded ordinal (Python `f"{n:04d}"`). -/
def pad4 (s : String) : String :=
  if s.length < 4 then String.mk (List.replicate (4 - s.length) '0') ++ s else s

/-- The `PLATE_NNNN` placeholder synthesized for an empty plate text, based
on the current row count. -/
def autoName (count : Nat) : String := "PLATE_" ++ pad4 (toString (count + 1))

/-- `LicensePlateService.add_or_update_detection`: returns
`((plate_id, is_new_record), new state)`.  `dbOk` says whether the outbound
store write (the UPDATE or the INSERT) succeeds. -/
def add_or_update_detection (st : ServiceState) (plate_text : String)
    (confidence : ℚ) (location : String) (coordinates : Option Coords)
    (now : Int) (dbOk : Bool) : (Int × Bool) × ServiceState :=
  match find_recent_detection st.store
      (if plate_text = "" then autoName st.store.length else plate_text) now 10 with
  | some m =>
    match update_plate st.store m.id
        (applyUpdate m confidence location coordinates now) dbOk with
    | (true, store') =>
      ((m.id, false), { st with store := store', last_save_time := now })
    | (false, store') => ((m.id, false), { st with store := store' })
  | none =>
    match create_new_detection st
        (if plate_text = "" then autoName st.store.length else plate_text)
        confidence location coordinates now dbOk with
    | (pid, st') =>
      if 0 < pid then ((pid, true), { st' with last_save_time := now })
      else ((-1, false), st')

/-- `LicensePlateService.can_save_detection`. -/
def can_save_detection (st : ServiceState) (current : Int) : Bool :=
  decide (3 ≤ current - st.last_save_time)

/-- `LicensePlateService.add_detection_if_allowed`. -/
def add_detection_if_allowed (st : ServiceState) (plate_text : String)
    (confidence : ℚ) (location : String) (coordinates : Option Coords)
    (now : Int) (dbOk : Bool) : Option Int × ServiceState :=
  if can_save_detection st now then
    match add_or_update_detection st plate_text confidence location coordinates
        now dbOk with
    | ((pid, _), st') => (if 0 < pid then some pid else none, st')
  else (none, st)

/-! ## Properties of the match lookup -/

theorem mostRecent_cons_none {p : Plate} {ps : List Plate}
    (hr : mostRecent ps = none) : mostRecent (p :: ps) = some p := by
  simp only [mostRecent, hr]

theorem mostRecent_cons_some {p q : Plate} {ps : List Plate}
    (hr : mostRecent ps = some q) :
    mostRecent (p :: ps) =
      if q.last_seen > p.last_seen then some q else some p := by
  simp only [mostRecent, hr]

theorem mostRecent_eq_none {l : List Plate} : mostRecent l = none ↔ l = [] := by
  cases l with
  | nil => simp [mostRecent]
  | cons p ps =>
    cases hr : mostRecent ps with
    | none => simp [mostRecent_cons_none hr]
    | some q =>
      rw [mostRecent_cons_some hr]
      by_cases hq : q.last_seen > p.last_seen <;> simp [hq]

theorem mostRecent_mem {l : List Plate} {m : Plate} (h : mostRecent l = some m) :
    m ∈ l := by
  induction l generalizing m with
  | nil => simp [mostRecent] at h
  | cons p ps ih =>
    cases hr : mostRecent ps with
    | none =>
      rw [mostRecent_cons_none hr] at h
      exact (Option.some.inj h) ▸ List.mem_cons_self p ps
    | some q =>
      rw [mostRecent_cons_some hr] at h
      by_cases hq : q.last_seen > p.last_seen
      · rw [if_pos hq] at h
        exact List.mem_cons_of_mem p (ih ((Option.some.inj h) ▸ hr))
      · rw [if_neg hq] at h
        exact (Option.some.inj h) ▸ List.mem_cons_self p ps

theorem mostRecent_le {l : List Plate} {m : Plate} (h : mostRecent l = some m) :
    ∀ p ∈ l, p.last_seen ≤ m.last_seen := by
  induction l generalizing m with
  | nil => simp [mostRecent] at h
  | cons p ps ih =>
    cases hr : mostRecent ps with
    | none =>
      rw [mostRecent_cons_none hr] at h
      obtain rfl := Option.some.inj h
      intro x hx
      rcases List.mem_cons.mp hx with rfl | hx
      · exact le_refl _
      · rw [mostRecent_eq_none.mp hr] at hx
        simp at hx
    | some q =>
      rw [mostRecent_cons_some hr] at h
      by_cases hq : q.last_seen > p.last_seen
      · rw [if_pos hq] at h
        obtain rfl := Option.some.inj h
        intro x hx
        rcases List.mem_cons.mp hx with rfl | hx
        · exact le_of_lt hq
        · exact ih hr x hx
      · rw [if_neg hq] at h
        obtain rfl := Option.some.inj h
        intro x hx
        rcases List.mem_cons.mp hx with rfl | hx
        · exact le_refl _
        · exact le_trans (ih hr x hx) (not_lt.mp hq)

theorem find_recent_spec {store : List Plate} {text : String}
    {now windowMin : Int} {m : Plate}
    (h : find_recent_detection store text now windowMin = some m) :
    m ∈ store ∧ matchesRecent text now windowMin m = true ∧
      ∀ p ∈ store, matchesRecent text now windowMin p = true →
        p.last_seen ≤ m.last_seen := by
  rw [find_recent_detection] at h
  have hmem := mostRecent_mem h
  have hle := mostRecent_le h
  rw [List.mem_filter] at hmem
  exact ⟨hmem.1, hmem.2, fun p hp hmp => hle p (List.mem_filter.mpr ⟨hp, hmp⟩)⟩

theorem find_recent_none {store : List Plate} {text : String}
    {now windowMin : Int}
    (h : find_recent_detection store text now windowMin = none) :
    ∀ p ∈ store, matchesRecent text now windowMin p = false := by
  rw [find_recent_detection, mostRecent_eq_none] at h
  intro p hp
  cases hmb : matchesRecent text now windowMin p with
  | false => rfl
  | true =>
    have hmem : p ∈ List.filter (matchesRecent text now windowMin) store :=
      List.mem_filter.mpr ⟨hp, hmb⟩
    rw [h] at hmem
    simp at hmem

theorem matchesRecent_iff {text : String} {now : Int} {p : Plate} :
    matchesRecent text now 10 p = true ↔
      p.plate_text = text ∧ now - 600 ≤ p.last_seen := by
  rw [matchesRecent]
  simp only [Bool.and_eq_true, beq_iff_eq, decide_eq_true_eq]
  norm_num

/-! ## Branch equations for `add_or_update_detection` -/

theorem add_or_update_update_success {st : ServiceState} {text : String}
    {conf : ℚ} {loc : String} {coords : Option Coords} {now : Int} {m : Plate}
    (hne : text ≠ "") (hf : find_recent_detection st.store text now 10 = some m)
    (hmem : m ∈ st.store) :
    add_or_update_detection st text conf loc coords now true =
      ((m.id, false),
        { st with
          store := st.store.map fun p =>
            if p.id == m.id then applyUpdate m conf loc coords now p else p
          last_save_time := now }) := by
  have hany : st.store.any (fun p => p.id == m.id) = true :=
    List.any_eq_true.mpr ⟨m, hmem, by simp⟩
  rw [add_or_update_detection]
  simp only [if_neg hne, hf, update_plate, Bool.true_and, hany, if_true]

theorem add_or_update_update_fail {st : ServiceState} {text : String}
    {conf : ℚ} {loc : String} {coords : Option Coords} {now : Int} {m : Plate}
    (hne : text ≠ "") (hf : find_recent_detection st.store text now 10 = some m) :
    add_or_update_detection st text conf loc coords now false =
      ((m.id, false), st) := by
  rw [add_or_update_detection]
  simp [if_neg hne, hf, update_plate]

theorem add_or_update_create_success {st : ServiceState} {text : String}
    {conf : ℚ} {loc : String} {coords : Option Coords} {now : Int}
    (hne : text ≠ "") (hf : find_recent_detection st.store text now 10 = none)
    (hpos : 0 < st.next_id) :
    add_or_update_detection st text conf loc coords now true =
      ((st.next_id, true),
        { store := st.store ++ [newPlate st.next_id text conf loc coords now]
          next_id := st.next_id + 1
          last_save_time := now }) := by
  rw [add_or_update_detection]
  simp only [if_neg hne, hf, create_new_detection, if_true, if_pos hpos]

theorem add_or_update_create_fail {st : ServiceState} {text : String}
    {conf : ℚ} {loc : String} {coords : Option Coords} {now : Int}
    (hne : text ≠ "") (hf : find_recent_detection st.store text now 10 = none) :
    add_or_update_detection st text conf loc coords now false =
      ((-1, false), st) := by
  rw [add_or_update_detection]
  simp [if_neg hne, hf, create_new_detection]

theorem add_or_update_fail_state (st : ServiceState) (text : String) (conf : ℚ)
    (loc : String) (coords : Option Coords) (now : Int) :
    (add_or_update_detection st text conf loc coords now false).2 = st := by
  rw [add_or_update_detection]
  cases hf : find_recent_detection st.store
      (if text = "" then autoName st.store.length else text) now 10 with
  | some m => simp [hf, update_plate]
  | none => simp [hf, create_new_detection]

/-! ## Concrete states for witnesses and counterexamples -/

/-- A persisted sighting as created by the spec scenario
`reconcile("ABC 123", 0.9, "Gate1", (1,2,3,4), t0)` with `t0 = 0`. -/
def cexPlate : Plate :=
  { id := 1
    plate_text := "ABC 123"
    confidence := 9/10
    best_confidence := 9/10
    location := "Gate1"
    coordinates := some (1, 2, 3, 4)
    best_coordinates := some (1, 2, 3, 4)
    status := "detected"
    detection_count := 1
    first_location := "Gate1"
    latest_location := "Gate1"
    last_seen := 0 }

/-- A store holding exactly `cexPlate`. -/
def cexState : ServiceState :=
  { store := [cexPlate], next_id := 2, last_save_time := 0 }

/-! ## Claims C2 - C5 -/

/-- C2: with non-empty plate text and a working store write, reconciliation
returns `is_new = false` precisely when the store holds a sighting of the
same text with `last_seen ≥ now - 600` seconds; when one exists, the id
returned is that of a matching sighting of maximal `last_seen`; when none
exists (e.g. the same text last seen 11 minutes earlier) a new sighting is
appended and `(next_id, true)` is returned. -/
theorem c2_reconcile_matches_by_window (st : ServiceState) (text : String)
    (conf : ℚ) (loc : String) (coords : Option Coords) (now : Int)
    (hne : text ≠ "") (hpos : 0 < st.next_id) :
    ((add_or_update_detection st text conf loc coords now true).1.2 = false ↔
      ∃ p ∈ st.store, p.plate_text = text ∧ now - 600 ≤ p.last_seen) ∧
    (∀ m, find_recent_detection st.store text now 10 = some m →
      (add_or_update_detection st text conf loc coords now true).1 = (m.id, false) ∧
      m ∈ st.store ∧ m.plate_text = text ∧ now - 600 ≤ m.last_seen ∧
      ∀ p ∈ st.store, p.plate_text = text → now - 600 ≤ p.last_seen →
        p.last_seen ≤ m.last_seen) ∧
    ((¬ ∃ p ∈ st.store, p.plate_text = text ∧ now - 600 ≤ p.last_seen) →
      (add_or_update_detection st text conf loc coords now true).1 =
        (st.next_id, true) ∧
      (add_or_update_detection st text conf loc coords now true).2.store =
        st.store ++ [newPlate st.next_id text conf loc coords now]) := by
  refine ⟨?_, ?_, ?_⟩
  · cases hf : find_recent_detection st.store text now 10 with
    | some m =>
      obtain ⟨hmem, hmatch, -⟩ := find_recent_spec hf
      rw [add_or_update_update_success hne hf hmem]
      exact ⟨fun _ => ⟨m, hmem, matchesRecent_iff.mp hmatch⟩, fun _ => rfl⟩
    | none =>
      rw [add_or_update_create_success hne hf hpos]
      constructor
      · intro h; exact absurd h (by simp)
      · rintro ⟨p, hp, hmp⟩
        have h0 := find_recent_none hf p hp
        rw [matchesRecent_iff.mpr hmp] at h0
        exact absurd h0 (by simp)
  · intro m hf
    obtain ⟨hmem, hmatch, hmax⟩ := find_recent_spec hf
    rw [add_or_update_update_success hne hf hmem]
    obtain ⟨htext, htime⟩ := matchesRecent_iff.mp hmatch
    exact ⟨rfl, hmem, htext, htime,
      fun p hp h1 h2 => hmax p hp (matchesRecent_iff.mpr ⟨h1, h2⟩)⟩
  · intro hno
    cases hf : find_recent_detection st.store text now 10 with
    | some m =>
      obtain ⟨hmem, hmatch, -⟩ := find_recent_spec hf
      exact absurd ⟨m, hmem, matchesRecent_iff.mp hmatch⟩ hno
    | none =>
      rw [add_or_update_create_success hne hf hpos]
      exact ⟨rfl, rfl⟩

/-- Witness for C2: the spec's "11 minutes later" scenario — `cexPlate` was
last seen at `t = 0`, a call at `t = 660` misses the 600-second window, so a
new sighting is created. -/
theorem c2_witness :
    (add_or_update_detection cexState "ABC 123" (1/2) "Gate1" (some (9, 9, 9, 9))
        660 true).1 = (cexState.next_id, true) ∧
    (add_or_update_detection cexState "ABC 123" (1/2) "Gate1" (some (9, 9, 9, 9))
        660 true).2.store =
      cexState.store ++
        [newPlate cexState.next_id "ABC 123" (1/2) "Gate1" (some (9, 9, 9, 9)) 660] :=
  (c2_reconcile_matches_by_window cexState "ABC 123" (1/2) "Gate1"
    (some (9, 9, 9, 9)) 660 (by decide) (by decide)).2.2 (by decide)

/-- C3: on the UPDATE path with coordinates supplied, `best_confidence` and
`best_coordinates` are both replaced by the new values exactly when the new
confidence is strictly greater than the matched sighting's stored
`best_confidence`; on a tie or lower confidence both keep their previous
values. -/
theorem c3_best_replaced_iff_strictly_greater (st : ServiceState) (text : String)
    (conf : ℚ) (loc : String) (cs : Coords) (now : Int) (m : Plate)
    (hne : text ≠ "") (hf : find_recent_detection st.store text now 10 = some m) :
    ∃ m' ∈ (add_or_update_detection st text conf loc (some cs) now true).2.store,
      m'.id = m.id ∧
      (m.best_confidence < conf →
        m'.best_confidence = conf ∧ m'.best_coordinates = some cs) ∧
      (¬ m.best_confidence < conf →
        m'.best_confidence = m.best_confidence ∧
        m'.best_coordinates = m.best_coordinates) := by
  obtain ⟨hmem, -, -⟩ := find_recent_spec hf
  rw [add_or_update_update_success hne hf hmem]
  refine ⟨applyUpdate m conf loc (some cs) now m, ?_, ?_, ?_, ?_⟩
  · have heq : (fun p =>
        if p.id == m.id then applyUpdate m conf loc (some cs) now p else p) m =
        applyUpdate m conf loc (some cs) now m := by simp
    exact heq ▸ List.mem_map_of_mem _ hmem
  · by_cases hb : m.best_confidence < conf <;> simp [applyUpdate, hb]
  · intro hb; simp [applyUpdate, hb]
  · intro hb; simp [applyUpdate, hb]

/-- Witness for C3 at the spec scenario: a second observation of "ABC 123"
with confidence 0.7 against a stored best of 0.9. -/
theorem c3_witness :
    ∃ m' ∈ (add_or_update_detection cexState "ABC 123" (7/10) "Gate1"
        (some (5, 6, 7, 8)) 60 true).2.store,
      m'.id = cexPlate.id ∧
      (cexPlate.best_confidence < 7/10 →
        m'.best_confidence = 7/10 ∧ m'.best_coordinates = some (5, 6, 7, 8)) ∧
      (¬ cexPlate.best_confidence < 7/10 →
        m'.best_confidence = cexPlate.best_confidence ∧
        m'.best_coordinates = cexPlate.best_coordinates) :=
  c3_best_replaced_iff_strictly_greater cexState "ABC 123" (7/10) "Gate1"
    (5, 6, 7, 8) 60 cexPlate (by decide) rfl

/-- C4: every successful UPDATE-path reconcile (with coordinates supplied)
increments `detection_count`, overwrites `confidence`, `coordinates` (whatever
the confidence comparison), `latest_location` and `last_seen`, and leaves
`first_location`, `plate_text` and `status` untouched, returning
`(match.id, false)`. -/
theorem c4_update_frame (st : ServiceState) (text : String) (conf : ℚ)
    (loc : String) (cs : Coords) (now : Int) (m : Plate)
    (hne : text ≠ "") (hf : find_recent_detection st.store text now 10 = some m) :
    (add_or_update_detection st text conf loc (some cs) now true).1 = (m.id, false) ∧
    ∃ m' ∈ (add_or_update_detection st text conf loc (some cs) now true).2.store,
      m'.id = m.id ∧
      m'.detection_count = m.detection_count + 1 ∧
      m'.confidence = conf ∧
      m'.coordinates = some cs ∧
      m'.latest_location = loc ∧
      m'.last_seen = now ∧
      m'.first_location = m.first_location ∧
      m'.plate_text = m.plate_text ∧
      m'.status = m.status := by
  obtain ⟨hmem, -, -⟩ := find_recent_spec hf
  rw [add_or_update_update_success hne hf hmem]
  refine ⟨rfl, applyUpdate m conf loc (some cs) now m, ?_, ?_⟩
  · have heq : (fun p =>
        if p.id == m.id then applyUpdate m conf loc (some cs) now p else p) m =
        applyUpdate m conf loc (some cs) now m := by simp
    exact heq ▸ List.mem_map_of_mem _ hmem
  · by_cases hb : m.best_confidence < conf <;> simp [applyUpdate, hb]

/-- Witness for C4 at the spec scenario (second observation within the
window). -/
theorem c4_witness :
    (add_or_update_detection cexState "ABC 123" (7/10) "Gate1" (some (5, 6, 7, 8))
        60 true).1 = (cexPlate.id, false) ∧
    ∃ m' ∈ (add_or_update_detection cexState "ABC 123" (7/10) "Gate1"
        (some (5, 6, 7, 8)) 60 true).2.store,
      m'.id = cexPlate.id ∧
      m'.detection_count = cexPlate.detection_count + 1 ∧
      m'.confidence = 7/10 ∧
      m'.coordinates = some (5, 6, 7, 8) ∧
      m'.latest_location = "Gate1" ∧
      m'.last_seen = 60 ∧
      m'.first_location = cexPlate.first_location ∧
      m'.plate_text = cexPlate.plate_text ∧
      m'.status = cexPlate.status :=
  c4_update_frame cexState "ABC 123" (7/10) "Gate1" (5, 6, 7, 8) 60 cexPlate
    (by decide) rfl

/-- C5: on the CREATE path (no recent match, working store) the call returns
`(next_id, true)`, the new row is appended, and it has
`confidence = best_confidence = round(confidence, 2)`,
`coordinates = best_coordinates`, `detection_count = 1`,
`first_location = latest_location = location` and status "detected". -/
theorem c5_create_path_fields (st : ServiceState) (text : String) (conf : ℚ)
    (loc : String) (coords : Option Coords) (now : Int)
    (hne : text ≠ "") (hpos : 0 < st.next_id)
    (hf : find_recent_detection st.store text now 10 = none) :
    (add_or_update_detection st text conf loc coords now true).1 =
      (st.next_id, true) ∧
    (add_or_update_detection st text conf loc coords now true).2.store =
      st.store ++ [newPlate st.next_id text conf loc coords now] ∧
    (newPlate st.next_id text conf loc coords now).confidence = round2 conf ∧
    (newPlate st.next_id text conf loc coords now).best_confidence = round2 conf ∧
    (newPlate st.next_id text conf loc coords now).coordinates = coords ∧
    (newPlate st.next_id text conf loc coords now).best_coordinates = coords ∧
    (newPlate st.next_id text conf loc coords now).detection_count = 1 ∧
    (newPlate st.next_id text conf loc coords now).first_location = loc ∧
    (newPlate st.next_id text conf loc coords now).latest_location = loc ∧
    (newPlate st.next_id text conf loc coords now).status = "detected" := by
  rw [add_or_update_create_success hne hf hpos]
  exact ⟨rfl, rfl, rfl, rfl, rfl, rfl, rfl, rfl, rfl, rfl⟩

/-- Witness for C5: the spec's empty-store scenario
`reconcile("ABC 123", 0.9, "Gate1", (1,2,3,4), t0)`. -/
theorem c5_witness :
    (add_or_update_detection ⟨[], 1, 0⟩ "ABC 123" (9/10) "Gate1"
        (some (1, 2, 3, 4)) 0 true).1 = ((1 : Int), true) ∧
    (add_or_update_detection ⟨[], 1, 0⟩ "ABC 123" (9/10) "Gate1"
        (some (1, 2, 3, 4)) 0 true).2.store =
      [] ++ [newPlate 1 "ABC 123" (9/10) "Gate1" (some (1, 2, 3, 4)) 0] ∧
    (newPlate 1 "ABC 123" (9/10) "Gate1" (some (1, 2, 3, 4)) 0).confidence =
      round2 (9/10) ∧
    (newPlate 1 "ABC 123" (9/10) "Gate1" (some (1, 2, 3, 4)) 0).best_confidence =
      round2 (9/10) ∧
    (newPlate 1 "ABC 123" (9/10) "Gate1" (some (1, 2, 3, 4)) 0).coordinates =
      some (1, 2, 3, 4) ∧
    (newPlate 1 "ABC 123" (9/10) "Gate1" (some (1, 2, 3, 4)) 0).best_coordinates =
      some (1, 2, 3, 4) ∧
    (newPlate 1 "ABC 123" (9/10) "Gate1" (some (1, 2, 3, 4)) 0).detection_count = 1 ∧
    (newPlate 1 "ABC 123" (9/10) "Gate1" (some (1, 2, 3, 4)) 0).first_location =
      "Gate1" ∧
    (newPlate 1 "ABC 123" (9/10) "Gate1" (some (1, 2, 3, 4)) 0).latest_location =
      "Gate1" ∧
    (newPlate 1 "ABC 123" (9/10) "Gate1" (some (1, 2, 3, 4)) 0).status = "detected" :=
  c5_create_path_fields ⟨[], 1, 0⟩ "ABC 123" (9/10) "Gate1" (some (1, 2, 3, 4)) 0
    (by decide) (by decide) rfl

/-! ## Claims C8 - C10 -/

/-- C8 counterexample: the claim "every confidence value is rounded to 2
decimal places before being stored, on both the CREATE and the UPDATE path"
is false — on the UPDATE path the raw confidence is stored.  Updating
`cexPlate` with confidence `0.123` stores `0.123` itself although
`round(0.123, 2) = 0.12 ≠ 0.123`. -/
theorem c8_counterexample :
    ∃ m' ∈ (add_or_update_detection cexState "ABC 123" (123/1000) "Gate1"
        (some (5, 6, 7, 8)) 60 true).2.store,
      m'.confidence = 123/1000 ∧ round2 (123/1000) ≠ 123/1000 := by
  have hf : find_recent_detection cexState.store "ABC 123" 60 10 = some cexPlate := rfl
  have hmem : cexPlate ∈ cexState.store := List.mem_cons_self _ _
  rw [add_or_update_update_success (by decide) hf hmem]
  refine ⟨applyUpdate cexPlate (123/1000) "Gate1" (some (5, 6, 7, 8)) 60 cexPlate,
    ?_, ?_, ?_⟩
  · have heq : (fun p => if p.id == cexPlate.id then
        applyUpdate cexPlate (123/1000) "Gate1" (some (5, 6, 7, 8)) 60 p else p)
        cexPlate =
        applyUpdate cexPlate (123/1000) "Gate1" (some (5, 6, 7, 8)) 60 cexPlate := by
      simp
    exact heq ▸ List.mem_map_of_mem _ hmem
  · by_cases hb : cexPlate.best_confidence < 123/1000 <;> simp [applyUpdate, hb]
  · rw [round2]
    norm_num [round_eq]

/-- C8 (amended): rounding to 2 decimal places happens on the CREATE path
only (both `confidence` and `best_confidence` of the inserted row); on the
UPDATE path the raw new confidence is stored into `confidence` — and into
`best_confidence` when strictly greater than the stored best — and the
best-comparison uses the raw values. -/
theorem c8_amended_rounding_create_only (st : ServiceState) (text : String)
    (conf : ℚ) (loc : String) (coords : Option Coords) (now : Int) (m : Plate)
    (hne : text ≠ "") (hf : find_recent_detection st.store text now 10 = some m) :
    (newPlate st.next_id text conf loc coords now).confidence = round2 conf ∧
    (newPlate st.next_id text conf loc coords now).best_confidence = round2 conf ∧
    ∃ m' ∈ (add_or_update_detection st text conf loc coords now true).2.store,
      m'.id = m.id ∧ m'.confidence = conf ∧
      (m.best_confidence < conf → m'.best_confidence = conf) := by
  obtain ⟨hmem, -, -⟩ := find_recent_spec hf
  rw [add_or_update_update_success hne hf hmem]
  refine ⟨rfl, rfl, applyUpdate m conf loc coords now m, ?_, ?_, ?_, ?_⟩
  · have heq : (fun p =>
        if p.id == m.id then applyUpdate m conf loc coords now p else p) m =
        applyUpdate m conf loc coords now m := by simp
    exact heq ▸ List.mem_map_of_mem _ hmem
  · by_cases hb : m.best_confidence < conf <;> cases coords <;> simp [applyUpdate, hb]
  · by_cases hb : m.best_confidence < conf <;> cases coords <;> simp [applyUpdate, hb]
  · intro hb; cases coords <;> simp [applyUpdate, hb]

/-- Witness for the amended C8 at the concrete update scenario with raw
confidence `0.123`. -/
theorem c8_witness :
    (newPlate cexState.next_id "ABC 123" (123/1000) "Gate1" (some (5, 6, 7, 8))
        60).confidence = round2 (123/1000) ∧
    (newPlate cexState.next_id "ABC 123" (123/1000) "Gate1" (some (5, 6, 7, 8))
        60).best_confidence = round2 (123/1000) ∧
    ∃ m' ∈ (add_or_update_detection cexState "ABC 123" (123/1000) "Gate1"
        (some (5, 6, 7, 8)) 60 true).2.store,
      m'.id = cexPlate.id ∧ m'.confidence = 123/1000 ∧
      (cexPlate.best_confidence < 123/1000 → m'.best_confidence = 123/1000) :=
  c8_amended_rounding_create_only cexState "ABC 123" (123/1000) "Gate1"
    (some (5, 6, 7, 8)) 60 cexPlate (by decide) rfl

/-- C9 counterexample: the claim "whenever the outbound store operation fails
reconcile returns the sentinel id `-1`" is false for the UPDATE path — with a
failing store write against the matched sighting of id 1, the call returns
`(1, false)`, not `-1`. -/
theorem c9_counterexample :
    (add_or_update_detection cexState "ABC 123" (1/2) "Gate1" (some (5, 6, 7, 8))
        60 false).1 = (1, false) ∧ (1 : Int) ≠ -1 := by
  constructor
  · rw [add_or_update_update_fail (by decide)
      (rfl : find_recent_detection cexState.store "ABC 123" 60 10 = some cexPlate)]
    rfl
  · decide

/-- C9 (amended): when the outbound store write fails, the reconciler performs
no state mutation at all; on the CREATE path it returns the sentinel
`(-1, false)`, but on the UPDATE path it returns `(match.id, false)` — the
same value as a successful update — rather than the `-1` sentinel. -/
theorem c9_amended_failure_no_mutation (st : ServiceState) (text : String)
    (conf : ℚ) (loc : String) (coords : Option Coords) (now : Int)
    (hne : text ≠ "") :
    (add_or_update_detection st text conf loc coords now false).2 = st ∧
    (∀ m, find_recent_detection st.store text now 10 = some m →
      (add_or_update_detection st text conf loc coords now false).1 = (m.id, false)) ∧
    (find_recent_detection st.store text now 10 = none →
      (add_or_update_detection st text conf loc coords now false).1 = (-1, false)) := by
  refine ⟨?_, ?_, ?_⟩
  · cases hf : find_recent_detection st.store text now 10 with
    | some m => rw [add_or_update_update_fail hne hf]
    | none => rw [add_or_update_create_fail hne hf]
  · intro m hf
    rw [add_or_update_update_fail hne hf]
  · intro hf
    rw [add_or_update_create_fail hne hf]

/-- Witness for the amended C9 at the concrete failing-update scenario. -/
theorem c9_witness :
    (add_or_update_detection cexState "ABC 123" (1/2) "Gate1" (some (5, 6, 7, 8))
        60 false).2 = cexState ∧
    (∀ m, find_recent_detection cexState.store "ABC 123" 60 10 = some m →
      (add_or_update_detection cexState "ABC 123" (1/2) "Gate1" (some (5, 6, 7, 8))
          60 false).1 = (m.id, false)) ∧
    (find_recent_detection cexState.store "ABC 123" 60 10 = none →
      (add_or_update_detection cexState "ABC 123" (1/2) "Gate1" (some (5, 6, 7, 8))
          60 false).1 = (-1, false)) :=
  c9_amended_failure_no_mutation cexState "ABC 123" (1/2) "Gate1"
    (some (5, 6, 7, 8)) 60 (by decide)

/-- C10: the rate-limiter watermark `last_save_time` advances only when a
store write succeeds — a failed write (either path) leaves it, and hence
every `can_save_detection` throttle decision, unchanged; and a create whose
insert hands back a non-positive id also leaves it unchanged. -/
theorem c10_watermark_only_on_successful_write (st : ServiceState)
    (text : String) (conf : ℚ) (loc : String) (coords : Option Coords)
    (now : Int) :
    (add_or_update_detection st text conf loc coords now false).2.last_save_time =
      st.last_save_time ∧
    (∀ t, can_save_detection
        (add_or_update_detection st text conf loc coords now false).2 t =
      can_save_detection st t) ∧
    (find_recent_detection st.store
        (if text = "" then autoName st.store.length else text) now 10 = none →
      st.next_id ≤ 0 →
      (add_or_update_detection st text conf loc coords now true).2.last_save_time =
        st.last_save_time) := by
  refine ⟨?_, ?_, ?_⟩
  · rw [add_or_update_fail_state]
  · intro t
    rw [add_or_update_fail_state]
  · intro hf hnp
    rw [add_or_update_detection]
    simp [hf, create_new_detection, not_lt.mpr hnp]

/-- Witness for C10 at the concrete store: a failed write at `t = 60` leaves
`last_save_time = 0` as it was. -/
theorem c10_witness :
    (add_or_update_detection cexState "ABC 123" (1/2) "Gate1" (some (5, 6, 7, 8))
        60 false).2.last_save_time = cexState.last_save_time ∧
    (∀ t, can_save_detection
        (add_or_update_detection cexState "ABC 123" (1/2) "Gate1" (some (5, 6, 7, 8))
          60 false).2 t =
      can_save_detection cexState t) ∧
    (find_recent_detection cexState.store
        (if "ABC 123" = "" then autoName cexState.store.length else "ABC 123")
        60 10 = none →
      cexState.next_id ≤ 0 →
      (add_or_update_detection cexState "ABC 123" (1/2) "Gate1" (some (5, 6, 7, 8))
          60 true).2.last_save_time = cexState.last_save_time) :=
  c10_watermark_only_on_successful_write cexState "ABC 123" (1/2) "Gate1"
    (some (5, 6, 7, 8)) 60

end PlateApp
